import Mathlib

/-!
Verification of the execution core of the mos6502 emulator
(`src/machine.rs`) against its natural-language specification.

The machine module is embedded shallowly: 8-bit signed registers are
`Int` with explicit two's-complement wraparound (`i8wrap`), the 16-bit
program counter is `Nat` reduced modulo 65536, and the external
collaborators that live outside `machine.rs` (the register file's
status type, the memory store, the opcode table and operand resolver)
are modelled from the specification's interface descriptions, each
marked `Modelled from the spec:` in its doc comment.
-/

namespace Mos6502

/-- Two's-complement wraparound of an integer into the signed 8-bit
range [-128, 127], the semantics of Rust `i8` wrapping arithmetic. -/
def i8wrap (x : Int) : Int := (x + 128) % 256 - 128

/-- Unsigned-byte reinterpretation of a signed 8-bit value
(`x as u8` in the source); `Int.emod` lands in [0, 256). -/
def u8 (x : Int) : Int := x % 256

/-- Reinterpretation of an unsigned byte as a signed 8-bit value
(`val as i8` in the source). -/
def u8ToI8 (v : Nat) : Int :=
  if v % 256 < 128 then (v % 256 : Int) else (v % 256 : Int) - 256

/-- Modelled from the spec: `registers.rs` is not under `src/`. The
status register is "a bit-flag set with at least four recognized bits
— Carry, Zero, Overflow, Negative". -/
structure Status where
  carry : Bool
  zero : Bool
  overflow : Bool
  negative : Bool
deriving DecidableEq, Repr

/-- Modelled from the spec: a mask selecting a subset of the four
status bits, for the masked-replace update. -/
structure StatusMask where
  carry : Bool
  zero : Bool
  overflow : Bool
  negative : Bool
deriving DecidableEq, Repr

/-- Union of two status-bit masks (`|` on bitflags in the source). -/
def StatusMask.or (a b : StatusMask) : StatusMask :=
  ⟨a.carry || b.carry, a.zero || b.zero,
   a.overflow || b.overflow, a.negative || b.negative⟩

def PS_CARRY : StatusMask := ⟨true, false, false, false⟩
def PS_ZERO : StatusMask := ⟨false, true, false, false⟩
def PS_OVERFLOW : StatusMask := ⟨false, false, true, false⟩
def PS_NEGATIVE : StatusMask := ⟨false, false, false, true⟩

/-- Modelled from the spec: `StatusArgs` names the bits a new status
value sets; `StatusArgs::none()` leaves them all false. -/
structure StatusArgs where
  carry : Bool
  zero : Bool
  overflow : Bool
  negative : Bool

def StatusArgs.none : StatusArgs := ⟨false, false, false, false⟩

/-- Modelled from the spec: `Status::new` builds a status value from
the given argument bits. -/
def Status.new (args : StatusArgs) : Status :=
  ⟨args.carry, args.zero, args.overflow, args.negative⟩

/-- Modelled from the spec: "masked replace — only bits set in `mask`
are taken from `new_status`; others in the live status are
preserved". -/
def Status.set_with_mask (s : Status) (mask : StatusMask) (v : Status) : Status :=
  ⟨if mask.carry then v.carry else s.carry,
   if mask.zero then v.zero else s.zero,
   if mask.overflow then v.overflow else s.overflow,
   if mask.negative then v.negative else s.negative⟩

/-- Modelled from the spec: "`c_before` = 1 if Carry flag set else 0". -/
def Status.get_carry (s : Status) : Int := if s.carry then 1 else 0

/-- Modelled from the spec: the register file holds the signed 8-bit
accumulator, index_x and index_y, the 16-bit unsigned program counter,
and the status bit-set. -/
structure Registers where
  accumulator : Int
  index_x : Int
  index_y : Int
  program_counter : Nat
  status : Status
deriving DecidableEq, Repr

/-- Modelled from the spec: fresh registers are all zeroed. -/
def Registers.new : Registers :=
  { accumulator := 0, index_x := 0, index_y := 0,
    program_counter := 0, status := ⟨false, false, false, false⟩ }

/-- Modelled from the spec: `memory.rs` is not under `src/`. Memory is
a byte-addressable store, total over the 16-bit address space. -/
structure Memory where
  get_raw : Nat → Nat

/-- Modelled from the spec: "`get_byte(address: 16-bit unsigned) ->
8-bit unsigned`: single-byte read, total over the full address space"
(addresses wrap). -/
def Memory.get_byte (m : Memory) (addr : Nat) : Nat :=
  m.get_raw (addr % 65536) % 256

/-- Modelled from the spec: "`get_slice(address, length) -> sequence
of 8-bit unsigned, length elements`: contiguous read". -/
def Memory.get_slice (m : Memory) (start len : Nat) : List Nat :=
  (List.range len).map (fun i => m.get_byte (start + i))

/-- Modelled from the spec: fresh memory is zero-filled. -/
def Memory.new : Memory := ⟨fun _ => 0⟩

/-- The root aggregate: one register file and one memory store. -/
structure Machine where
  registers : Registers
  memory : Memory

def Machine.new : Machine := { registers := Registers.new, memory := Memory.new }

/-- Modelled from the spec: `instruction.rs` is not under `src/`. The
instruction tags the dispatcher names, plus `OTHER n` standing for
"any other ISA instruction" tag the opcode table may define. -/
inductive Instruction where
  | ADC
  | DEX
  | LDA
  | LDX
  | LDY
  | NOP
  | OTHER (tag : Nat)
deriving DecidableEq, Repr

/-- Modelled from the spec: the resolved operand produced by the
operand resolver — "Immediate(8-bit value), Address(16-bit address),
or Implied(no operand)"; constructor names follow the source's
`UseImmediate`/`UseAddress`/`UseImplied`. -/
inductive AMOut where
  | UseImplied
  | UseImmediate (val : Nat)
  | UseAddress (addr : Nat)
deriving DecidableEq, Repr

/-- A decoded (instruction tag, resolved operand) pair. -/
abbrev DecodedInstr := Instruction × AMOut

/-- Modelled from the spec: an addressing mode reports its operand
width (`extra_bytes`) and resolves a raw byte slice to an operand
(`process` "may read Machine state ... but must not mutate it"). -/
structure AddressingMode where
  extra_bytes : Nat
  process : Machine → List Nat → AMOut

namespace Machine

/-- `Machine::load_register_with_flags`: returns the new register
value together with the status after the masked Zero/Negative
replace. -/
def load_register_with_flags (status : Status) (value : Int) : Int × Status :=
  let is_zero : Bool := decide (value = 0)
  let is_negative : Bool := decide (value < 0)
  (value,
   status.set_with_mask (PS_ZERO.or PS_NEGATIVE)
     (Status.new { StatusArgs.none with zero := is_zero, negative := is_negative }))

/-- `Machine::load_x_register`. -/
def load_x_register (m : Machine) (value : Int) : Machine :=
  let p := load_register_with_flags m.registers.status value
  { m with registers := { m.registers with index_x := p.1, status := p.2 } }

/-- `Machine::load_y_register`. -/
def load_y_register (m : Machine) (value : Int) : Machine :=
  let p := load_register_with_flags m.registers.status value
  { m with registers := { m.registers with index_y := p.1, status := p.2 } }

/-- `Machine::load_accumulator`. -/
def load_accumulator (m : Machine) (value : Int) : Machine :=
  let p := load_register_with_flags m.registers.status value
  { m with registers := { m.registers with accumulator := p.1, status := p.2 } }

/-- `Machine::add_with_carry`: 8-bit wrapping sum of accumulator,
carry-in and operand; Carry and Overflow updated by masked replace,
then the accumulator and Zero/Negative via `load_accumulator`. -/
def add_with_carry (m : Machine) (value : Int) : Machine :=
  let a_before : Int := m.registers.accumulator
  let c_before : Int := m.registers.status.get_carry
  let a_after : Int := i8wrap (i8wrap (a_before + c_before) + value)
  let did_carry : Bool := decide (u8 a_after < u8 a_before)
  let did_overflow : Bool :=
    decide ((a_before < 0 ∧ value < 0 ∧ 0 ≤ a_after) ∨
            (0 < a_before ∧ 0 < value ∧ a_after ≤ 0))
  let mask := PS_CARRY.or PS_OVERFLOW
  let m1 : Machine :=
    { m with registers := { m.registers with
        status := m.registers.status.set_with_mask mask
          (Status.new { StatusArgs.none with
                          carry := did_carry, overflow := did_overflow }) } }
  load_accumulator m1 a_after

/-- `Machine::dec_x`: 8-bit wrapping decrement of index_x. -/
def dec_x (m : Machine) : Machine :=
  let val := m.registers.index_x
  load_x_register m (i8wrap (val - 1))

/-- `Machine::execute_instruction`: total dispatch over (instruction
tag, operand kind); unmatched pairs are a no-op. -/
def execute_instruction (m : Machine) (decoded_instr : DecodedInstr) : Machine :=
  match decoded_instr with
  | (Instruction.ADC, AMOut.UseImmediate val) => m.add_with_carry (u8ToI8 val)
  | (Instruction.ADC, AMOut.UseAddress addr) =>
      m.add_with_carry (u8ToI8 (m.memory.get_byte addr))
  | (Instruction.DEX, AMOut.UseImplied) => m.dec_x
  | (Instruction.LDA, AMOut.UseImmediate val) => m.load_accumulator (u8ToI8 val)
  | (Instruction.LDA, AMOut.UseAddress addr) =>
      m.load_accumulator (u8ToI8 (m.memory.get_byte addr))
  | (Instruction.LDX, AMOut.UseImmediate val) => m.load_x_register (u8ToI8 val)
  | (Instruction.LDX, AMOut.UseAddress addr) =>
      m.load_x_register (u8ToI8 (m.memory.get_byte addr))
  | (Instruction.LDY, AMOut.UseImmediate val) => m.load_y_register (u8ToI8 val)
  | (Instruction.LDY, AMOut.UseAddress addr) =>
      m.load_y_register (u8ToI8 (m.memory.get_byte addr))
  | (Instruction.NOP, _) => m
  | (_, _) => m

/-- `Machine::fetch_next_and_decode`, parametrized by the opcode table
(modelled from the spec as "a total function from 8-bit opcode to
optional (instruction tag, addressing-mode tag)"). Returns the decoded
pair together with the machine after the program-counter advance, or
`none` on an undefined opcode (state untouched). -/
def fetch_next_and_decode (OPCODES : Nat → Option (Instruction × AddressingMode))
    (m : Machine) : Option (DecodedInstr × Machine) :=
  let x : Nat := m.memory.get_byte m.registers.program_counter
  match OPCODES x with
  | some (instr, am) =>
      let extra_bytes := am.extra_bytes
      let num_bytes := 1 + extra_bytes
      let data_start := (m.registers.program_counter + 1) % 65536
      let slice := m.memory.get_slice data_start extra_bytes
      let am_out := am.process m slice
      let m1 : Machine :=
        { m with registers := { m.registers with
            program_counter := (m.registers.program_counter + num_bytes) % 65536 } }
      some ((instr, am_out), m1)
  | none => Option.none

/-- `Machine::run`, with explicit fuel bounding the number of loop
iterations: each iteration fetches, decodes and executes one
instruction; an undefined opcode stops the loop. -/
def runFuel (OPCODES : Nat → Option (Instruction × AddressingMode)) :
    Nat → Machine → Machine
  | 0, m => m
  | Nat.succ n, m =>
      match fetch_next_and_decode OPCODES m with
      | some (d, m1) => runFuel OPCODES n (execute_instruction m1 d)
      | Option.none => m

/-- The (instruction tag, operand kind) pairs that have an implemented
case in `execute_instruction`'s dispatch. -/
def implemented : DecodedInstr → Bool
  | (Instruction.ADC, AMOut.UseImmediate _) => true
  | (Instruction.ADC, AMOut.UseAddress _) => true
  | (Instruction.DEX, AMOut.UseImplied) => true
  | (Instruction.LDA, AMOut.UseImmediate _) => true
  | (Instruction.LDA, AMOut.UseAddress _) => true
  | (Instruction.LDX, AMOut.UseImmediate _) => true
  | (Instruction.LDX, AMOut.UseAddress _) => true
  | (Instruction.LDY, AMOut.UseImmediate _) => true
  | (Instruction.LDY, AMOut.UseAddress _) => true
  | (Instruction.NOP, _) => true
  | (_, _) => false

end Machine

end Mos6502

namespace Mos6502

open Machine

/-- A machine with the Carry flag set and all registers zero. -/
def machineCarrySet : Machine :=
  { registers := { Registers.new with status := ⟨true, false, false, false⟩ },
    memory := Memory.new }

/-- A machine whose index_x holds the minimum signed 8-bit value. -/
def machineXMin : Machine :=
  { registers := { Registers.new with index_x := -128 }, memory := Memory.new }

/-- A 0-extra-byte addressing mode resolving to the implied operand. -/
def amImplied : AddressingMode := ⟨0, fun _ _ => AMOut.UseImplied⟩

/-- An opcode table defining only opcode 0, as No-Operation, implied. -/
def opcodesNopOnly : Nat → Option (Instruction × AddressingMode) :=
  fun x => if x = 0 then some (Instruction.NOP, amImplied) else Option.none

/-- C1: for every accumulator value, carry-in (the stored Carry flag,
read as 0 or 1) and operand `v`, the unsigned-byte reinterpretation of
the accumulator after `add_with_carry v` equals the sum of the
unsigned reinterpretations of the three operands modulo 256. -/
theorem adc_wraparound_identity (m : Machine) (v : Int) :
    u8 ((m.add_with_carry v).registers.accumulator) =
      (u8 m.registers.accumulator + m.registers.status.get_carry + u8 v) % 256 := by
  simp only [Machine.add_with_carry, Machine.load_accumulator,
    Machine.load_register_with_flags, Status.get_carry, u8, i8wrap]
  cases hc : m.registers.status.carry <;> simp <;> omega

/-- C2 (code behaviour at the failing input): with accumulator 0, the
Carry flag set and operand -1 (byte 0xFF), the unsigned sum
0 + 1 + 255 = 256 exceeds 255, yet `add_with_carry` leaves the Carry
flag clear, because it computes carry as "result byte < accumulator
byte" and here the result byte equals the accumulator byte. -/
theorem adc_carry_misses_wrap :
    u8 machineCarrySet.registers.accumulator + machineCarrySet.registers.status.get_carry
        + u8 (-1 : Int) > 255 ∧
      ((machineCarrySet.add_with_carry (-1)).registers.status.carry = false) := by
  constructor
  · decide
  · decide

/-- C3: after `add_with_carry v`, the Overflow flag is set iff the
accumulator-before and `v` were both negative and the result is
non-negative, or both positive and the result is non-positive. -/
theorem adc_overflow_correct (m : Machine) (v : Int) :
    ((m.add_with_carry v).registers.status.overflow = true) ↔
      ((m.registers.accumulator < 0 ∧ v < 0 ∧
          0 ≤ (m.add_with_carry v).registers.accumulator) ∨
       (0 < m.registers.accumulator ∧ 0 < v ∧
          (m.add_with_carry v).registers.accumulator ≤ 0)) := by
  simp [Machine.add_with_carry, Machine.load_accumulator,
    Machine.load_register_with_flags, Status.set_with_mask, Status.new,
    StatusMask.or, PS_CARRY, PS_ZERO, PS_OVERFLOW, PS_NEGATIVE, StatusArgs.none]

/-- C4: each of `load_accumulator`, `load_x_register`,
`load_y_register` sets its target register to the value, sets Zero iff
the value is 0, sets Negative iff the value is negative, and leaves
the Carry and Overflow flags untouched. -/
theorem load_register_flag_contract (m : Machine) (v : Int) :
    ((m.load_accumulator v).registers.accumulator = v ∧
     ((m.load_accumulator v).registers.status.zero = true ↔ v = 0) ∧
     ((m.load_accumulator v).registers.status.negative = true ↔ v < 0) ∧
     (m.load_accumulator v).registers.status.carry = m.registers.status.carry ∧
     (m.load_accumulator v).registers.status.overflow = m.registers.status.overflow) ∧
    ((m.load_x_register v).registers.index_x = v ∧
     ((m.load_x_register v).registers.status.zero = true ↔ v = 0) ∧
     ((m.load_x_register v).registers.status.negative = true ↔ v < 0) ∧
     (m.load_x_register v).registers.status.carry = m.registers.status.carry ∧
     (m.load_x_register v).registers.status.overflow = m.registers.status.overflow) ∧
    ((m.load_y_register v).registers.index_y = v ∧
     ((m.load_y_register v).registers.status.zero = true ↔ v = 0) ∧
     ((m.load_y_register v).registers.status.negative = true ↔ v < 0) ∧
     (m.load_y_register v).registers.status.carry = m.registers.status.carry ∧
     (m.load_y_register v).registers.status.overflow = m.registers.status.overflow) := by
  simp [Machine.load_accumulator, Machine.load_x_register, Machine.load_y_register,
    Machine.load_register_with_flags, Status.set_with_mask, Status.new,
    StatusMask.or, PS_ZERO, PS_NEGATIVE, StatusArgs.none]

/-- C5: when the byte at the program counter is a defined opcode,
`fetch_next_and_decode` returns the (instruction tag, resolved
operand) pair — the operand resolved from the `extra_bytes`-long slice
read starting at `program_counter + 1` — and advances the program
counter by `1 + extra_bytes` (in the 16-bit address space); when that
byte is undefined in the opcode table, it returns none. -/
theorem fetch_next_and_decode_spec
    (OPCODES : Nat → Option (Instruction × AddressingMode)) (m : Machine) :
    (∀ instr am,
        OPCODES (m.memory.get_byte m.registers.program_counter) = some (instr, am) →
        fetch_next_and_decode OPCODES m =
          some ((instr, am.process m
              (m.memory.get_slice ((m.registers.program_counter + 1) % 65536)
                am.extra_bytes)),
            { m with registers := { m.registers with
                program_counter :=
                  (m.registers.program_counter + (1 + am.extra_bytes)) % 65536 } })) ∧
    (OPCODES (m.memory.get_byte m.registers.program_counter) = Option.none →
        fetch_next_and_decode OPCODES m = Option.none) := by
  constructor
  · intro instr am h
    simp [Machine.fetch_next_and_decode, h]
  · intro h
    simp [Machine.fetch_next_and_decode, h]

/-- C5 witness: on a table defining opcode 0 as No-Operation with an
implied (0-byte) addressing mode, fetching on a fresh machine decodes
it and advances the counter to 1; on the empty table it returns none. -/
theorem fetch_next_and_decode_spec_witness :
    (fetch_next_and_decode opcodesNopOnly Machine.new =
      some ((Instruction.NOP, amImplied.process Machine.new
          (Machine.new.memory.get_slice
            ((Machine.new.registers.program_counter + 1) % 65536) amImplied.extra_bytes)),
        { Machine.new with registers := { Machine.new.registers with
            program_counter :=
              (Machine.new.registers.program_counter + (1 + amImplied.extra_bytes))
                % 65536 } })) ∧
    fetch_next_and_decode (fun _ => Option.none) Machine.new = Option.none :=
  ⟨(fetch_next_and_decode_spec opcodesNopOnly Machine.new).1
      Instruction.NOP amImplied rfl,
   (fetch_next_and_decode_spec (fun _ => Option.none) Machine.new).2 rfl⟩

/-- C6: when the byte at the program counter is not a defined opcode,
`run` stops before executing any instruction and leaves the machine
unchanged, whatever fuel the loop is given. -/
theorem run_halts_on_undefined_opcode
    (OPCODES : Nat → Option (Instruction × AddressingMode)) (m : Machine)
    (h : OPCODES (m.memory.get_byte m.registers.program_counter) = Option.none)
    (fuel : Nat) :
    runFuel OPCODES fuel m = m := by
  cases fuel with
  | zero => rfl
  | succ n => simp [Machine.runFuel, Machine.fetch_next_and_decode, h]

/-- C6 witness: on the empty opcode table a fresh machine is returned
unchanged by the run loop. -/
theorem run_halts_on_undefined_opcode_witness :
    runFuel (fun _ => Option.none) 5 Machine.new = Machine.new :=
  run_halts_on_undefined_opcode (fun _ => Option.none) Machine.new rfl 5

/-- C7: every decoded pair with no implemented dispatch case is a
no-op: `execute_instruction` returns the machine unchanged. -/
theorem unimplemented_instruction_noop (m : Machine) (d : DecodedInstr)
    (h : implemented d = false) :
    m.execute_instruction d = m := by
  rcases d with ⟨i, o⟩
  cases i <;> cases o <;> simp_all [Machine.implemented, Machine.execute_instruction]

/-- C7 witness: an instruction tag without semantics, and a known tag
with an unexpected operand kind, both leave a fresh machine unchanged. -/
theorem unimplemented_instruction_noop_witness :
    (implemented (Instruction.OTHER 0, AMOut.UseImplied) = false ∧
      Machine.new.execute_instruction (Instruction.OTHER 0, AMOut.UseImplied) =
        Machine.new) ∧
    (implemented (Instruction.DEX, AMOut.UseImmediate 7) = false ∧
      Machine.new.execute_instruction (Instruction.DEX, AMOut.UseImmediate 7) =
        Machine.new) :=
  ⟨⟨rfl, unimplemented_instruction_noop Machine.new
      (Instruction.OTHER 0, AMOut.UseImplied) rfl⟩,
   ⟨rfl, unimplemented_instruction_noop Machine.new
      (Instruction.DEX, AMOut.UseImmediate 7) rfl⟩⟩

/-- C8 counterexample: on a machine whose index_x is -128, `dec_x`
does wrap to 127, but the Negative flag afterwards is clear (127 is
non-negative), so the claimed conjunction — 127 with Negative set and
Zero clear — is false. -/
theorem dec_x_min_claim_false :
    ¬ ((machineXMin.dec_x).registers.index_x = 127 ∧
       (machineXMin.dec_x).registers.status.negative = true ∧
       (machineXMin.dec_x).registers.status.zero = false) := by
  decide

/-- C8 (amended): on any machine whose index_x is -128, `dec_x` wraps
index_x to 127, with the Negative flag clear and the Zero flag clear
afterwards. -/
theorem dec_x_min_wraps (m : Machine) (h : m.registers.index_x = -128) :
    (m.dec_x).registers.index_x = 127 ∧
    (m.dec_x).registers.status.negative = false ∧
    (m.dec_x).registers.status.zero = false := by
  simp [Machine.dec_x, Machine.load_x_register, Machine.load_register_with_flags,
    Status.set_with_mask, Status.new, StatusMask.or, PS_ZERO, PS_NEGATIVE,
    StatusArgs.none, h, i8wrap]

/-- C8 witness: the amended statement at a concrete machine with
index_x = -128. -/
theorem dec_x_min_wraps_witness :
    (machineXMin.dec_x).registers.index_x = 127 ∧
    (machineXMin.dec_x).registers.status.negative = false ∧
    (machineXMin.dec_x).registers.status.zero = false :=
  dec_x_min_wraps machineXMin rfl

/-- C9: executing the No-Operation instruction any number of times,
with any operand, leaves the whole machine — every register and every
status bit — unchanged. -/
theorem nop_iterated_identity (m : Machine) (op : AMOut) (n : Nat) :
    Nat.iterate (fun s => s.execute_instruction (Instruction.NOP, op)) n m = m := by
  induction n with
  | zero => rfl
  | succ k ih =>
      rw [Function.iterate_succ_apply]
      have hstep : m.execute_instruction (Instruction.NOP, op) = m := by
        cases op <;> rfl
      rw [hstep, ih]

/-- C10: `execute_instruction` never modifies the program counter and
never writes to memory, for every machine state and decoded pair. -/
theorem execute_instruction_frame (m : Machine) (d : DecodedInstr) :
    (m.execute_instruction d).registers.program_counter =
        m.registers.program_counter ∧
    (m.execute_instruction d).memory = m.memory := by
  rcases d with ⟨i, o⟩
  cases i <;> cases o <;>
    simp [Machine.execute_instruction, Machine.add_with_carry, Machine.dec_x,
      Machine.load_accumulator, Machine.load_x_register, Machine.load_y_register,
      Machine.load_register_with_flags]

end Mos6502
